import Mathlib

/-!
Shallow embedding of the 443d server (src/443d.go): configuration data model,
the glob-based virtual-host router, the security-header calculator, the
redirector handler, and the TLS endpoint's header-injecting handler.
Backend request handlers are opaque capabilities per the design
(they live in a separate package of the repository), so they are modelled as
arbitrary response-transforming functions.
-/

namespace FourFourThreeD

/-! ## Glob matching (github.com/ryanuber/go-glob, function glob.Glob)

Strings are handled as lists of characters; splitting a pattern on the `*`
character mirrors `strings.Split(pattern, "*")`, and `subAfter` mirrors the
`strings.Index` + slice-trim step of the Go loop. -/

/-- `strings.Split(s, "*")` for a single-character separator: split a char
list on `*`. -/
def splitOnStar : List Char → List (List Char)
  | [] => [[]]
  | c :: rest =>
    let r := splitOnStar rest
    if c = '*' then [] :: r
    else
      match r with
      | [] => [[c]]
      | g :: gs => (c :: g) :: gs

/-- `strings.Index(subj, part)` followed by trimming `subj[idx+len(part):]`:
returns the remainder of `subj` after the first occurrence of `part`, or
`none` when `part` does not occur. -/
def subAfter (part : List Char) : List Char → Option (List Char)
  | [] => if part.isPrefixOf ([] : List Char) then some [] else none
  | c :: rest =>
    if part.isPrefixOf (c :: rest) then some ((c :: rest).drop part.length)
    else subAfter part rest

/-- The loop of `glob.Glob` over the parts after the first one, plus the
final `trailingGlob || strings.HasSuffix(subj, parts[end])` check. -/
def globScan (trailing : Bool) : List (List Char) → List Char → Bool
  | [], _ => trailing
  | [last], subj => trailing || last.isSuffixOf subj
  | p :: q :: ps, subj =>
    match subAfter p subj with
    | none => false
    | some rest => globScan trailing (q :: ps) rest

/-- `glob.Glob(pattern, subj)` from github.com/ryanuber/go-glob, on char
lists. -/
def globChars (pattern subj : List Char) : Bool :=
  if pattern = [] then subj = ([] : List Char)
  else if pattern = ['*'] then true
  else
    let parts := splitOnStar pattern
    match parts with
    | [] => false
    | [_] => subj = pattern
    | p0 :: p1 :: ps =>
      let leading := pattern.head? = some '*'
      let trailing := pattern.getLast? = some '*'
      if ¬leading ∧ ¬(p0.isPrefixOf subj) then false
      else
        match subAfter p0 subj with
        | none => false
        | some rest => globScan trailing (p1 :: ps) rest

/-- `glob.Glob(pattern, subj)` on Lean strings. -/
def Glob (pattern subj : String) : Bool :=
  globChars pattern.toList subj.toList

/-! ## Configuration data model (type `Config`, src/443d.go lines 24-48) -/

/-- The `Hsts` block of the TLS configuration. -/
structure HstsConfig where
  seconds : Int
  subdomains : Bool
deriving DecidableEq

/-- The `Hpkp` block of the TLS configuration. -/
structure HpkpConfig where
  seconds : Int
  subdomains : Bool
  backupKeys : List String
deriving DecidableEq

/-- The `Tls` block of the configuration. -/
structure TlsConfig where
  listen : String
  cert : String
  key : String
  ssh : String
  hsts : HstsConfig
  hpkp : HpkpConfig
deriving DecidableEq

/-- A request as the router and handlers observe it: its Host and its
original request URI (path and query). -/
structure Request where
  host : String
  requestURI : String
deriving DecidableEq

/-- An HTTP response as observed through the ResponseWriter: the headers
added so far, the status code once written, and the body chunks written. -/
structure Response where
  headers : List (String × String)
  status : Option Nat
  body : List String
deriving DecidableEq

/-- `w.Header().Add(k, v)`. -/
def addHeader (w : Response) (k v : String) : Response :=
  { w with headers := w.headers ++ [(k, v)] }

/-- Whether a header with the given key is present in the response. -/
def hasHeader (w : Response) (k : String) : Bool :=
  w.headers.any (fun p => p.1 = k)

/-- The first value of the header with the given key, if any. -/
def getHeader (w : Response) (k : String) : Option String :=
  (w.headers.find? (fun p => p.1 = k)).map Prod.snd

/-- A virtual-host entry: hostname glob patterns plus a request handler.
Modelled from the spec: the handler field is the opaque request-handling
capability each virtual host supplies ("given a request, produce a
response"); the concrete `HttpBackend` handler construction lives in a
separate package of this repository, so it is modelled as an arbitrary
function from the request and the response written so far to the resulting
response. -/
structure HttpBackend where
  hostnames : List String
  handler : Request → Response → Response

/-- The `Http` block of the configuration. -/
structure HttpConfig where
  listen : String
deriving DecidableEq

/-- The `Redirector` block of the configuration. -/
structure RedirectorConfig where
  listen : String
deriving DecidableEq

/-- The top-level configuration (src/443d.go lines 24-48). -/
structure Config where
  tls : TlsConfig
  http : HttpConfig
  redirector : RedirectorConfig
  hosts : List HttpBackend
  defaultHost : String

/-! ## Handlers -/

/-- Inner loop of `httpHandler` (src/443d.go lines 62-68): walk the entry's
hostname patterns in order; the first glob match fires the handler. -/
def hostnamesMatch : List String → String → Bool
  | [], _ => false
  | hostn :: rest, host => if Glob hostn host then true else hostnamesMatch rest host

/-- Outer loop of `httpHandler` (src/443d.go lines 60-69): walk the
configured host entries in order and call the first matching entry's
handler, returning immediately; fall through without touching the response
when nothing matches. -/
def routeHosts : List HttpBackend → Request → Response → Response
  | [], _, w => w
  | hostcnf :: rest, r, w =>
    if hostnamesMatch hostcnf.hostnames r.host then hostcnf.handler r w
    else routeHosts rest r w

/-- `httpHandler` (src/443d.go lines 56-70): substitute the default host
for an empty request host, then route. -/
def httpHandler (config : Config) (r : Request) (w : Response) : Response :=
  let r := if r.host = "" then { r with host := config.defaultHost } else r
  routeHosts config.hosts r w

/-- `http.StatusMovedPermanently`. -/
def statusMovedPermanently : Nat := 301

/-- `w.Header().Set(k, v)`: replace any existing values of the key. -/
def setHeader (w : Response) (k v : String) : Response :=
  { w with headers := w.headers.filter (fun p => p.1 ≠ k) ++ [(k, v)] }

/-- `http.Redirect(w, r, url, code)`, as observable on the response: it sets
the Location header to `url` and writes the status `code`. -/
def Redirect (w : Response) (url : String) (code : Nat) : Response :=
  { setHeader w "Location" url with status := some code }

/-- `redirHandler` (src/443d.go lines 72-74). -/
def redirHandler (r : Request) (w : Response) : Response :=
  Redirect w ("https://" ++ r.host ++ r.requestURI) statusMovedPermanently

/-- `secHandler` (src/443d.go lines 113-121): on the TLS endpoint, add the
precomputed security headers (each guarded by its `Seconds != 0` test),
then delegate to `httpHandler`. `hstsHeader` and `hpkpHeader` are the
precomputed header strings (globals in the source). -/
def secHandler (config : Config) (hstsHeader hpkpHeader : String) (r : Request) (w : Response) : Response :=
  let w := if config.tls.hsts.seconds ≠ 0 then addHeader w "Strict-Transport-Security" hstsHeader else w
  let w := if config.tls.hpkp.seconds ≠ 0 then addHeader w "Public-Key-Pins" hpkpHeader else w
  httpHandler config r w

/-- The guard with which the TLS server goroutine returns before binding or
serving (src/443d.go lines 104-112): it skips on an empty listen address,
or when the certificate path and the key path are both empty. -/
def tlsServerSkipped (config : Config) : Bool :=
  config.tls.listen = "" || (config.tls.cert = "" && config.tls.key = "")

/-! ## processConfig (src/443d.go lines 166-201) -/

/-- Loaded certificate material: the chain of certificates from the
certificate file, leaf first (crypto/tls documents `Certificate` as "a
chain of one or more certificates, leaf first"). Of each certificate only
its `RawSubjectPublicKeyInfo` bytes are retained, the only field the
program reads. -/
structure X509Certificate where
  rawSubjectPublicKeyInfo : List Nat
deriving DecidableEq

/-- The certificate the program parses into `tlsKeyPair.Leaf` and whose
SPKI it hashes for HPKP: `Certificate[len(Certificate)-1]` (src/443d.go
line 176), i.e. the last certificate of the chain. -/
def hpkpPinnedCert (chain : List X509Certificate) : Option X509Certificate :=
  chain.getLast?

/-- The bytes fed to `sha256.Sum256` for the primary pin (line 190). -/
def hpkpDigestInput (chain : List X509Certificate) : Option (List Nat) :=
  (hpkpPinnedCert chain).map X509Certificate.rawSubjectPublicKeyInfo

/-- `fmt.Sprintf("pin-sha256=\"%s\"", k)` (lines 191 and 193). -/
def pinClause (k : String) : String := "pin-sha256=\"" ++ k ++ "\""

/-- The `hstsHeader` computation (src/443d.go lines 180-185), run when
`Hsts.Seconds != 0`. -/
def hstsHeaderValue (seconds : Int) (subdomains : Bool) : String :=
  let h := "max-age=" ++ toString seconds
  if subdomains then h ++ "; includeSubdomains" else h

/-- The backup-key loop of the `hpkpHeader` computation (lines 192-194). -/
def appendBackupKeys (h : String) : List String → String
  | [] => h
  | k :: ks => appendBackupKeys (h ++ "; pin-sha256=\"" ++ k ++ "\"") ks

/-- The `hpkpHeader` computation (src/443d.go lines 186-199), run when
`Hpkp.Seconds != 0`; `digest` stands for
`base64.StdEncoding.EncodeToString(sha256.Sum256(spki))`, which the
program computes with library code. -/
def hpkpHeaderValue (digest : String) (backupKeys : List String) (seconds : Int) (subdomains : Bool) : String :=
  let h := pinClause digest
  let h := appendBackupKeys h backupKeys
  let h := h ++ "; max-age=" ++ toString seconds
  if subdomains then h ++ "; includeSubdomains" else h

/-- The `DefaultHost` normalization of `processConfig` (lines 167-169). -/
def processDefaultHost (defaultHost : String) : String :=
  if defaultHost = "" then "localhost" else defaultHost

/-! ## Spec-side definitions (from the specification's words, for
refinement statements) -/

/-- Spec-side: a list of clauses joined with `; `. -/
def joinClauses : List String → String
  | [] => ""
  | [c] => c
  | c :: c2 :: cs => c ++ "; " ++ joinClauses (c2 :: cs)

/-- Spec-side: the clause list of the HPKP header — the primary pin, one
clause per backup key in order, `max-age`, and `includeSubdomains` exactly
when the flag is set. -/
def hpkpClauses (digest : String) (backupKeys : List String) (seconds : Int) (subdomains : Bool) : List String :=
  pinClause digest
    :: backupKeys.map pinClause
    ++ (("max-age=" ++ toString seconds)
      :: (if subdomains then ["includeSubdomains"] else []))

/-- Spec-side: the clause list of the HSTS header. -/
def hstsClauses (seconds : Int) (subdomains : Bool) : List String :=
  ("max-age=" ++ toString seconds) :: (if subdomains then ["includeSubdomains"] else [])

/-- Spec-side: the first configured entry one of whose patterns
glob-matches the host. -/
def firstMatchingHost (hosts : List HttpBackend) (host : String) : Option HttpBackend :=
  hosts.find? (fun hostcnf => (hostcnf.hostnames.find? (fun hostn => Glob hostn host)).isSome)

/-- The tail produced by the backup-key loop, written head-recursively (used
to relate the accumulator loop to the clause list). -/
def pinTail : List String → String
  | [] => ""
  | k :: ks => "; " ++ pinClause k ++ pinTail ks

/-! ## Concrete instances -/

/-- A concrete configuration for closed instances; only the fields the
claims read vary. -/
def mkConfig (listen cert key : String) (hstsSeconds hpkpSeconds : Int)
    (hosts : List HttpBackend) (defaultHost : String) : Config :=
  { tls := { listen := listen, cert := cert, key := key, ssh := "",
             hsts := { seconds := hstsSeconds, subdomains := false },
             hpkp := { seconds := hpkpSeconds, subdomains := false, backupKeys := [] } },
    http := { listen := "" },
    redirector := { listen := "" },
    hosts := hosts,
    defaultHost := defaultHost }

/-- A backend that records that it ran by appending a body chunk. -/
def markerBackend (patterns : List String) : HttpBackend :=
  { hostnames := patterns,
    handler := fun _ w => { w with body := w.body ++ ["handled"] } }

/-- A fresh response: nothing written yet. -/
def emptyResponse : Response := { headers := [], status := none, body := [] }

/-- Concrete input refuting the strict `> 0` reading of the HSTS guard:
a configured (negative) duration of -1 second. -/
def configHstsNegative : Config :=
  mkConfig "0.0.0.0:443" "cert.pem" "key.pem" (-1) 0 [] "localhost"

/-- Concrete input for the TLS-skip guard: a certificate path is configured
but the key path is empty. -/
def configCertOnly : Config :=
  mkConfig "0.0.0.0:443" "cert.pem" "" 0 0 [] "localhost"

/-! Helper lemmas -/

theorem appendBackupKeys_eq (ks : List String) (h : String) :
    appendBackupKeys h ks = h ++ pinTail ks := by
  induction ks generalizing h with
  | nil => simp [appendBackupKeys, pinTail]
  | cons k ks ih =>
    apply String.ext
    simp [appendBackupKeys, pinTail, ih, pinClause, String.data_append, List.append_assoc]

theorem joinClauses_cons_append (ks : List String) (c : String) (r0 : String)
    (rest : List String) :
    joinClauses (c :: (ks.map pinClause ++ (r0 :: rest))) =
      c ++ pinTail ks ++ "; " ++ joinClauses (r0 :: rest) := by
  induction ks generalizing c with
  | nil => simp [joinClauses, pinTail]
  | cons k ks ih =>
    apply String.ext
    simp [joinClauses, pinTail, ih, String.data_append, List.append_assoc]

theorem hostnamesMatch_eq (ps : List String) (host : String) :
    hostnamesMatch ps host = (ps.find? (fun p => Glob p host)).isSome := by
  induction ps with
  | nil => rfl
  | cons p ps ih =>
    by_cases h : Glob p host
    · simp [hostnamesMatch, h, List.find?_cons_of_pos]
    · simp [hostnamesMatch, h, List.find?_cons_of_neg, ih]

theorem routeHosts_eq_firstMatch (hosts : List HttpBackend) (r : Request) (w : Response) :
    routeHosts hosts r w =
      match firstMatchingHost hosts r.host with
      | some hostcnf => hostcnf.handler r w
      | none => w := by
  induction hosts with
  | nil => rfl
  | cons hc hosts ih =>
    by_cases h : hostnamesMatch hc.hostnames r.host
    · rw [hostnamesMatch_eq] at h
      simp [routeHosts, firstMatchingHost, List.find?_cons_of_pos _ h,
        hostnamesMatch_eq, h]
    · rw [hostnamesMatch_eq] at h
      simp [routeHosts, firstMatchingHost, List.find?_cons_of_neg _ h,
        hostnamesMatch_eq, h, ih]

theorem firstMatchingHost_eq_none (hosts : List HttpBackend) (host : String)
    (hnm : ∀ hostcnf ∈ hosts, ∀ hostn ∈ hostcnf.hostnames, Glob hostn host = false) :
    firstMatchingHost hosts host = none := by
  rw [firstMatchingHost, List.find?_eq_none]
  intro hc hmem
  cases hq : hc.hostnames.find? (fun hostn => Glob hostn host) with
  | none => simp [hq]
  | some hostn =>
    have hp := List.find?_some hq
    have hm := List.mem_of_find?_eq_some hq
    rw [hnm hc hmem hostn hm] at hp
    exact absurd hp (by simp)

theorem hasHeader_addHeader_self (w : Response) (k v : String) :
    hasHeader (addHeader w k v) k = true := by
  simp [hasHeader, addHeader]

theorem hasHeader_addHeader_ne (w : Response) (k k' v : String) (h : k' ≠ k) :
    hasHeader (addHeader w k' v) k = hasHeader w k := by
  simp [hasHeader, addHeader, h]

theorem hasHeader_routeHosts (hosts : List HttpBackend) (r : Request) (w : Response)
    (k : String)
    (hb : ∀ hostcnf ∈ hosts, ∀ r' w',
      hasHeader (hostcnf.handler r' w') k = hasHeader w' k) :
    hasHeader (routeHosts hosts r w) k = hasHeader w k := by
  induction hosts with
  | nil => rfl
  | cons hc hosts ih =>
    by_cases h : hostnamesMatch hc.hostnames r.host
    · simp [routeHosts, h, hb hc (by simp)]
    · simp only [routeHosts, h, Bool.false_eq_true, ite_false]
      exact ih (fun hc' hmem => hb hc' (List.mem_cons_of_mem _ hmem))

theorem hasHeader_httpHandler (config : Config) (r : Request) (w : Response) (k : String)
    (hb : ∀ hostcnf ∈ config.hosts, ∀ r' w',
      hasHeader (hostcnf.handler r' w') k = hasHeader w' k) :
    hasHeader (httpHandler config r w) k = hasHeader w k := by
  unfold httpHandler
  by_cases h : r.host = "" <;> simp [h, hasHeader_routeHosts _ _ _ _ hb]

theorem getHeader_setHeader_self (w : Response) (k v : String) :
    getHeader (setHeader w k v) k = some v := by
  simp only [getHeader, setHeader]
  induction w.headers with
  | nil => simp
  | cons p0 l ih =>
    by_cases h0 : p0.1 = k
    · rw [List.filter_cons, if_neg (by simp [h0])]
      exact ih
    · rw [List.filter_cons, if_pos (by simp [h0]), List.cons_append,
        List.find?_cons_of_neg _ (by simp [h0])]
      exact ih

theorem any_key_filter_ne (l : List (String × String)) (k k' : String) (h : k' ≠ k) :
    ((l.filter (fun p => p.1 ≠ k')).any (fun p => p.1 = k)) = l.any (fun p => p.1 = k) := by
  induction l with
  | nil => rfl
  | cons p0 l ih =>
    by_cases h0 : p0.1 = k'
    · have hk : p0.1 ≠ k := fun hh => h (h0.symm.trans hh)
      rw [List.filter_cons, if_neg (by simp [h0]), ih, List.any_cons]
      simp [hk]
    · rw [List.filter_cons, if_pos (by simp [h0]), List.any_cons, List.any_cons, ih]

theorem hasHeader_setHeader_ne (w : Response) (k k' v : String) (h : k' ≠ k) :
    hasHeader (setHeader w k' v) k = hasHeader w k := by
  simp only [hasHeader, setHeader, List.any_append]
  rw [any_key_filter_ne _ _ _ h]
  simp [h]

/-! Claim theorems -/

/-- Claim C1 (code-bug evidence): the certificate whose SPKI bytes the
program hashes for the HPKP pin is `Certificate[len(Certificate)-1]`
(src/443d.go line 176), the LAST certificate of the loaded chain — not the
leaf. crypto/tls documents the chain as leaf-first, so on a two-certificate
chain the digest input is the second (CA) certificate's SPKI, which differs
from the leaf's. -/
theorem hpkpDigestInput_uses_last_not_leaf :
    hpkpDigestInput [⟨[1]⟩, ⟨[2]⟩] = some [2] ∧
    (([⟨[1]⟩, ⟨[2]⟩] : List X509Certificate).head?.map
      X509Certificate.rawSubjectPublicKeyInfo) = some [1] ∧
    (some [2] : Option (List Nat)) ≠ some [1] := by
  refine ⟨rfl, rfl, by decide⟩

/-- Claim C2 counterexample: a configuration with a certificate path but an
empty key path is not skipped by the TLS goroutine (its guard requires both
paths to be empty), refuting "skipped whenever the certificate path or the
key path is missing". -/
theorem tlsServerSkipped_cert_only_counterexample :
    configCertOnly.tls.key = "" ∧ configCertOnly.tls.listen ≠ "" ∧
    tlsServerSkipped configCertOnly = false := by
  refine ⟨rfl, by decide, rfl⟩

/-- Claim C2 (amended): with a configured TLS listen address, the TLS
server goroutine returns without binding or serving exactly when the
certificate path and the key path are both empty. -/
theorem tlsServerSkipped_iff_both_empty (config : Config)
    (hl : config.tls.listen ≠ "") :
    tlsServerSkipped config = true ↔
      (config.tls.cert = "" ∧ config.tls.key = "") := by
  simp [tlsServerSkipped, hl]

theorem tlsServerSkipped_iff_both_empty_witness :
    tlsServerSkipped (mkConfig "0.0.0.0:443" "" "" 0 0 [] "localhost") = true ↔
      ((mkConfig "0.0.0.0:443" "" "" 0 0 [] "localhost").tls.cert = "" ∧
        (mkConfig "0.0.0.0:443" "" "" 0 0 [] "localhost").tls.key = "") :=
  tlsServerSkipped_iff_both_empty (mkConfig "0.0.0.0:443" "" "" 0 0 [] "localhost")
    (by decide)

/-- Claim C3: for a configured HPKP duration > 0, the computed
Public-Key-Pins value is exactly the primary pin clause, one verbatim
clause per backup key in configured order, `max-age=<seconds>`, and
`includeSubdomains` exactly when the flag is set, all joined with `; `. -/
theorem hpkpHeaderValue_format (digest : String) (backupKeys : List String)
    (seconds : Int) (subdomains : Bool) (_h : 0 < seconds) :
    hpkpHeaderValue digest backupKeys seconds subdomains =
      joinClauses (hpkpClauses digest backupKeys seconds subdomains) := by
  cases subdomains with
  | false =>
    apply String.ext
    simp [hpkpHeaderValue, hpkpClauses, joinClauses_cons_append, appendBackupKeys_eq,
      joinClauses, pinClause, String.data_append, List.append_assoc]
  | true =>
    apply String.ext
    simp [hpkpHeaderValue, hpkpClauses, joinClauses_cons_append, appendBackupKeys_eq,
      joinClauses, pinClause, String.data_append, List.append_assoc]

theorem hpkpHeaderValue_format_witness :
    (0 : Int) < 5184000 ∧
    hpkpHeaderValue "ABC=" ["DEF="] 5184000 false =
      joinClauses (hpkpClauses "ABC=" ["DEF="] 5184000 false) ∧
    hpkpHeaderValue "ABC=" ["DEF="] 5184000 false =
      "pin-sha256=\"ABC=\"; pin-sha256=\"DEF=\"; max-age=5184000" :=
  ⟨by decide, hpkpHeaderValue_format "ABC=" ["DEF="] 5184000 false (by decide), by decide⟩

/-- Claim C4: for a configured HSTS duration > 0, the computed
Strict-Transport-Security value is exactly `max-age=<seconds>`, followed by
`; includeSubdomains` exactly when the subdomain flag is set. -/
theorem hstsHeaderValue_format (seconds : Int) (subdomains : Bool) (_h : 0 < seconds) :
    hstsHeaderValue seconds subdomains = joinClauses (hstsClauses seconds subdomains) := by
  cases subdomains with
  | false => simp [hstsHeaderValue, hstsClauses, joinClauses]
  | true =>
    apply String.ext
    simp [hstsHeaderValue, hstsClauses, joinClauses, String.data_append, List.append_assoc]

theorem hstsHeaderValue_format_witness :
    (0 : Int) < 31536000 ∧
    hstsHeaderValue 31536000 true = joinClauses (hstsClauses 31536000 true) ∧
    hstsHeaderValue 31536000 true = "max-age=31536000; includeSubdomains" :=
  ⟨by decide, hstsHeaderValue_format 31536000 true (by decide), by decide⟩

/-- Claim C5 counterexample: with a configured HSTS duration of -1 seconds
(nonzero, but not > 0), the TLS endpoint's handler adds the
Strict-Transport-Security header, refuting "sent iff the configured
duration is > 0". -/
theorem hstsHeader_negative_seconds_counterexample :
    ¬ (0 : Int) < configHstsNegative.tls.hsts.seconds ∧
    hasHeader
      (secHandler configHstsNegative
        (hstsHeaderValue configHstsNegative.tls.hsts.seconds
          configHstsNegative.tls.hsts.subdomains)
        "" { host := "h", requestURI := "/" } emptyResponse)
      "Strict-Transport-Security" = true := by
  refine ⟨by decide, by decide⟩

/-- Claim C5 (amended): on the TLS endpoint, the Strict-Transport-Security
header is present on the response exactly when the configured HSTS duration
is nonzero (in particular, never when it is 0), for any fresh response and
any backends that do not themselves touch that header. -/
theorem hstsHeader_sent_iff_nonzero (config : Config) (hstsH hpkpH : String)
    (r : Request) (w : Response)
    (hw : hasHeader w "Strict-Transport-Security" = false)
    (hb : ∀ hostcnf ∈ config.hosts, ∀ r' w',
      hasHeader (hostcnf.handler r' w') "Strict-Transport-Security" =
        hasHeader w' "Strict-Transport-Security") :
    (hasHeader (secHandler config hstsH hpkpH r w) "Strict-Transport-Security" = true ↔
      config.tls.hsts.seconds ≠ 0) := by
  unfold secHandler
  rw [hasHeader_httpHandler _ _ _ _ hb]
  by_cases hs : config.tls.hsts.seconds = 0 <;>
    by_cases hp : config.tls.hpkp.seconds = 0 <;>
      simp [hs, hp, hasHeader_addHeader_self, hw,
        hasHeader_addHeader_ne _ _ _ _
          (by decide : ("Public-Key-Pins" : String) ≠ "Strict-Transport-Security")]

theorem hstsHeader_sent_iff_nonzero_witness :
    hasHeader
      (secHandler (mkConfig "0.0.0.0:443" "cert.pem" "key.pem" 5 0 [] "localhost")
        "max-age=5" "" { host := "h", requestURI := "/" } emptyResponse)
      "Strict-Transport-Security" = true ↔
      (mkConfig "0.0.0.0:443" "cert.pem" "key.pem" 5 0 [] "localhost").tls.hsts.seconds ≠ 0 :=
  hstsHeader_sent_iff_nonzero (mkConfig "0.0.0.0:443" "cert.pem" "key.pem" 5 0 [] "localhost")
    "max-age=5" "" { host := "h", requestURI := "/" } emptyResponse (by decide)
    (fun hc hmem => absurd hmem (List.not_mem_nil hc))

/-- Claim C6: the router invokes the handler of the first configured entry
(in configured order) one of whose hostname patterns glob-matches the
request host — first match wins — and leaves the response alone otherwise;
an empty request host is replaced by the configured default host before
matching (and the handler sees the substituted host). -/
theorem httpHandler_first_match (config : Config) (r : Request) (w : Response) :
    httpHandler config r w =
      (match firstMatchingHost config.hosts
          (if r.host = "" then config.defaultHost else r.host) with
       | some hostcnf =>
           hostcnf.handler
             { r with host := if r.host = "" then config.defaultHost else r.host } w
       | none => w) := by
  by_cases h : r.host = ""
  · simp [httpHandler, h, routeHosts_eq_firstMatch]
  · simp [httpHandler, h, routeHosts_eq_firstMatch]

/-- Claim C7: when no configured hostname pattern glob-matches the
(substituted) request host, no backend is selected and the router returns
with the response exactly as it received it — nothing is written. -/
theorem httpHandler_no_match_unhandled (config : Config) (r : Request) (w : Response)
    (hnm : ∀ hostcnf ∈ config.hosts, ∀ hostn ∈ hostcnf.hostnames,
      Glob hostn (if r.host = "" then config.defaultHost else r.host) = false) :
    firstMatchingHost config.hosts
      (if r.host = "" then config.defaultHost else r.host) = none ∧
    httpHandler config r w = w := by
  have hfind := firstMatchingHost_eq_none _ _ hnm
  refine ⟨hfind, ?_⟩
  by_cases h : r.host = "" <;>
    simp only [h, if_pos, if_neg, ite_true, ite_false] at hfind <;>
      simp [httpHandler, h, routeHosts_eq_firstMatch, hfind]

theorem httpHandler_no_match_unhandled_witness :
    firstMatchingHost (mkConfig "" "" "" 0 0 [markerBackend ["example.com"]] "localhost").hosts
      "other.com" = none ∧
    httpHandler (mkConfig "" "" "" 0 0 [markerBackend ["example.com"]] "localhost")
      { host := "other.com", requestURI := "/" } emptyResponse = emptyResponse :=
  httpHandler_no_match_unhandled
    (mkConfig "" "" "" 0 0 [markerBackend ["example.com"]] "localhost")
    { host := "other.com", requestURI := "/" } emptyResponse (by decide)

/-- Claim C8: the plain-HTTP endpoint's handler (the router used directly)
and the redirector's handler add neither Strict-Transport-Security nor
Public-Key-Pins, while the TLS endpoint's handler adds each of them
whenever its configured duration is nonzero — for any fresh response and
any backends that do not themselves touch these headers. -/
theorem security_headers_only_on_tls (config : Config) (hstsH hpkpH : String)
    (r : Request) (w : Response)
    (hwS : hasHeader w "Strict-Transport-Security" = false)
    (hwP : hasHeader w "Public-Key-Pins" = false)
    (hbS : ∀ hostcnf ∈ config.hosts, ∀ r' w',
      hasHeader (hostcnf.handler r' w') "Strict-Transport-Security" =
        hasHeader w' "Strict-Transport-Security")
    (hbP : ∀ hostcnf ∈ config.hosts, ∀ r' w',
      hasHeader (hostcnf.handler r' w') "Public-Key-Pins" =
        hasHeader w' "Public-Key-Pins") :
    (hasHeader (httpHandler config r w) "Strict-Transport-Security" = false ∧
      hasHeader (httpHandler config r w) "Public-Key-Pins" = false) ∧
    (hasHeader (redirHandler r w) "Strict-Transport-Security" = false ∧
      hasHeader (redirHandler r w) "Public-Key-Pins" = false) ∧
    (config.tls.hsts.seconds ≠ 0 →
      hasHeader (secHandler config hstsH hpkpH r w) "Strict-Transport-Security" = true) ∧
    (config.tls.hpkp.seconds ≠ 0 →
      hasHeader (secHandler config hstsH hpkpH r w) "Public-Key-Pins" = true) := by
  refine ⟨⟨?_, ?_⟩, ⟨?_, ?_⟩, ?_, ?_⟩
  · rw [hasHeader_httpHandler _ _ _ _ hbS]; exact hwS
  · rw [hasHeader_httpHandler _ _ _ _ hbP]; exact hwP
  · show hasHeader (setHeader w "Location" _) _ = false
    rw [hasHeader_setHeader_ne _ _ _ _ (by decide)]; exact hwS
  · show hasHeader (setHeader w "Location" _) _ = false
    rw [hasHeader_setHeader_ne _ _ _ _ (by decide)]; exact hwP
  · intro hs
    unfold secHandler
    rw [hasHeader_httpHandler _ _ _ _ hbS]
    by_cases hp : config.tls.hpkp.seconds = 0 <;>
      simp [hs, hp, hasHeader_addHeader_self,
        hasHeader_addHeader_ne _ _ _ _
          (by decide : ("Public-Key-Pins" : String) ≠ "Strict-Transport-Security")]
  · intro hp
    unfold secHandler
    rw [hasHeader_httpHandler _ _ _ _ hbP]
    simp [hp, hasHeader_addHeader_self]

theorem security_headers_only_on_tls_witness :
    (hasHeader
        (httpHandler (mkConfig "0.0.0.0:443" "cert.pem" "key.pem" 1 1 [] "localhost")
          { host := "h", requestURI := "/" } emptyResponse)
        "Strict-Transport-Security" = false ∧
      hasHeader
        (httpHandler (mkConfig "0.0.0.0:443" "cert.pem" "key.pem" 1 1 [] "localhost")
          { host := "h", requestURI := "/" } emptyResponse)
        "Public-Key-Pins" = false) ∧
    (hasHeader (redirHandler { host := "h", requestURI := "/" } emptyResponse)
        "Strict-Transport-Security" = false ∧
      hasHeader (redirHandler { host := "h", requestURI := "/" } emptyResponse)
        "Public-Key-Pins" = false) ∧
    ((mkConfig "0.0.0.0:443" "cert.pem" "key.pem" 1 1 [] "localhost").tls.hsts.seconds ≠ 0 →
      hasHeader
        (secHandler (mkConfig "0.0.0.0:443" "cert.pem" "key.pem" 1 1 [] "localhost")
          "max-age=1" "pin-sha256=\"x\"; max-age=1"
          { host := "h", requestURI := "/" } emptyResponse)
        "Strict-Transport-Security" = true) ∧
    ((mkConfig "0.0.0.0:443" "cert.pem" "key.pem" 1 1 [] "localhost").tls.hpkp.seconds ≠ 0 →
      hasHeader
        (secHandler (mkConfig "0.0.0.0:443" "cert.pem" "key.pem" 1 1 [] "localhost")
          "max-age=1" "pin-sha256=\"x\"; max-age=1"
          { host := "h", requestURI := "/" } emptyResponse)
        "Public-Key-Pins" = true) :=
  security_headers_only_on_tls
    (mkConfig "0.0.0.0:443" "cert.pem" "key.pem" 1 1 [] "localhost")
    "max-age=1" "pin-sha256=\"x\"; max-age=1"
    { host := "h", requestURI := "/" } emptyResponse
    (by decide) (by decide)
    (fun hc hmem => absurd hmem (List.not_mem_nil hc))
    (fun hc hmem => absurd hmem (List.not_mem_nil hc))

/-- Claim C9: every request to the redirector endpoint yields a permanent
redirect — status 301 — whose Location is exactly
`https://` ++ host ++ original path-and-query. -/
theorem redirHandler_permanent_https_redirect (r : Request) (w : Response) :
    (redirHandler r w).status = some statusMovedPermanently ∧
    statusMovedPermanently = 301 ∧
    getHeader (redirHandler r w) "Location" =
      some ("https://" ++ r.host ++ r.requestURI) := by
  refine ⟨rfl, rfl, ?_⟩
  exact getHeader_setHeader_self w "Location" ("https://" ++ r.host ++ r.requestURI)

/-- Claim C10: an empty configured default host is normalized to
"localhost" by processConfig, and a request with an empty Host is then
routed exactly as one whose host is "localhost". -/
theorem emptyDefaultHost_routes_as_localhost (config : Config) (r : Request) (w : Response)
    (hd : config.defaultHost = "") (hr : r.host = "") :
    processDefaultHost config.defaultHost = "localhost" ∧
    httpHandler { config with defaultHost := processDefaultHost config.defaultHost } r w =
      httpHandler { config with defaultHost := processDefaultHost config.defaultHost }
        { r with host := "localhost" } w := by
  have hp : processDefaultHost config.defaultHost = "localhost" := by
    rw [hd]; rfl
  refine ⟨hp, ?_⟩
  simp [httpHandler, hr, hp]

theorem emptyDefaultHost_routes_as_localhost_witness :
    processDefaultHost (mkConfig "" "" "" 0 0 [markerBackend ["localhost"]] "").defaultHost
      = "localhost" ∧
    httpHandler
      { mkConfig "" "" "" 0 0 [markerBackend ["localhost"]] "" with
        defaultHost :=
          processDefaultHost (mkConfig "" "" "" 0 0 [markerBackend ["localhost"]] "").defaultHost }
      { host := "", requestURI := "/" } emptyResponse =
    httpHandler
      { mkConfig "" "" "" 0 0 [markerBackend ["localhost"]] "" with
        defaultHost :=
          processDefaultHost (mkConfig "" "" "" 0 0 [markerBackend ["localhost"]] "").defaultHost }
      { host := "localhost", requestURI := "/" } emptyResponse :=
  emptyDefaultHost_routes_as_localhost
    (mkConfig "" "" "" 0 0 [markerBackend ["localhost"]] "")
    { host := "", requestURI := "/" } emptyResponse rfl rfl

end FourFourThreeD
